import Mathlib

set_option autoImplicit false

namespace EditThat

/-- A raw video buffer: a byte sequence, one natural number per byte. -/
abbrev Buf := List ℕ

/-- Fixed frame geometry of a raw video (RawGeometry in the data model). -/
structure RawGeometry where
  width : ℕ
  height : ℕ
  bytesPerPixel : ℕ
  frameRate : ℕ
deriving DecidableEq

/-- Bytes per frame of a geometry: width * height * bytesPerPixel. -/
def RawGeometry.frameSizeBytes (g : RawGeometry) : ℕ :=
  g.width * g.height * g.bytesPerPixel

/-- The reference geometry hard-coded throughout the source:
320 x 240, 3 bytes per pixel, 30 frames per second. -/
def refGeometry : RawGeometry := ⟨320, 240, 3, 30⟩

/-- calculateRawVideoDuration from videoProcessing.js:
fileSize / (320 * 240 * 3 * 30), exact division. -/
def calculateRawVideoDuration (fileSize : ℕ) : ℚ :=
  (fileSize : ℚ) / (320 * 240 * 3 * 30)

/-- JavaScript truthiness of an optional numeric field:
an absent field and the number 0 are both falsy. -/
def jsTruthy : Option ℚ → Bool
  | none => false
  | some q => q != 0

/-- Truncation toward zero, as JavaScript coerces fractional buffer sizes
and offsets to integers. -/
def jsTrunc (q : ℚ) : ℤ :=
  if 0 ≤ q then ⌊q⌋ else ⌈q⌉

/-- Frame size in bytes hard-coded in processVideo: 320 * 240 * 3. -/
def frameSize : ℕ := 320 * 240 * 3

/-- totalFrames in processVideo: inputFileSize / frameSize, exact JS division. -/
def rawTotalFrames (inputFileSize : ℕ) : ℚ :=
  (inputFileSize : ℚ) / (frameSize : ℚ)

/-- startFrame in processVideo:
options.trimStart ? options.trimStart * 30 : 0. -/
def jsStartFrame (trimStart : Option ℚ) : ℚ :=
  if jsTruthy trimStart then trimStart.getD 0 * 30 else 0

/-- endFrame in processVideo:
options.trimEnd ? totalFrames - options.trimEnd * 30 : totalFrames. -/
def jsEndFrame (inputFileSize : ℕ) (trimEnd : Option ℚ) : ℚ :=
  if jsTruthy trimEnd then rawTotalFrames inputFileSize - trimEnd.getD 0 * 30
  else rawTotalFrames inputFileSize

/-- Failures the raw trim path can actually raise: a RangeError from
Buffer.alloc on a negative size, a RangeError from Buffer.copy on a negative
offset, and filesystem failures. -/
inductive EngineError where
  | allocRangeError
  | copyRangeError
  | ioError
deriving DecidableEq, Repr

/-- Buffer.alloc: a RangeError for a (truncated) negative size,
else a zero-filled buffer of the truncated size. -/
def bufferAlloc (size : ℚ) : Except EngineError Buf :=
  if jsTrunc size < 0 then .error .allocRangeError
  else .ok (List.replicate (jsTrunc size).toNat 0)

/-- Buffer.copy of source[sourceStart, sourceEnd) into the start of target:
copying stops at whichever buffer runs out first, the rest of target keeps
its previous bytes. -/
def bufferCopy (target source : Buf) (sourceStart sourceEnd : ℕ) : Buf :=
  let slice := ((source.drop sourceStart).take (sourceEnd - sourceStart)).take target.length
  slice ++ target.drop slice.length

/-- The raw branch of processVideo in videoProcessing.js, acting on the input
bytes: compute startFrame and endFrame, allocate the output buffer, copy the
byte range, and return the buffer with duration (endFrame - startFrame) / 30. -/
def processVideoRaw (inputBuffer : Buf) (trimStart trimEnd : Option ℚ) :
    Except EngineError (Buf × ℚ) :=
  match bufferAlloc ((jsEndFrame inputBuffer.length trimEnd - jsStartFrame trimStart)
      * (frameSize : ℚ)) with
  | .error e => .error e
  | .ok outputBuffer =>
      if jsTrunc (jsStartFrame trimStart * (frameSize : ℚ)) < 0 then
        .error .copyRangeError
      else
        .ok (bufferCopy outputBuffer inputBuffer
              (jsTrunc (jsStartFrame trimStart * (frameSize : ℚ))).toNat
              (jsTrunc (jsEndFrame inputBuffer.length trimEnd * (frameSize : ℚ))).toNat,
             (jsEndFrame inputBuffer.length trimEnd - jsStartFrame trimStart) / 30)

/-- mergeVideos from videoProcessing.js: append each input in order to the
output (the write-stream loop), then derive the duration from the total
output size: fileSize / (320 * 240 * 3 * 30). -/
def mergeVideos (buffers : List Buf) : Buf × ℚ :=
  let outputBuffer := buffers.foldl (fun acc b => acc ++ b) []
  (outputBuffer, (outputBuffer.length : ℚ) / (320 * 240 * 3 * 30))

/-- Duration by summing per-input raw estimates, following the spec wording
for merge: the sum of estimateRaw(len(b)) over the inputs. -/
def mergeDurationBySumming (buffers : List Buf) : ℚ :=
  (buffers.map (fun b => calculateRawVideoDuration b.length)).sum

/-- Typed failures of the HTTP layer in app.js around trim:
400 invalid trim parameters, 400 negative trim values, 404 missing video,
and the 500 catch-all wrapping engine exceptions. -/
inductive ApiError where
  | invalidTrimParams
  | negativeTrimValues
  | notFound
  | internalError
deriving DecidableEq, Repr

/-- Parameter validation of POST /videos/:id/trim in app.js: reject when both
trim fields are JS-falsy, then reject any provided negative value. -/
def validateTrimParams (trimStart trimEnd : Option ℚ) : Except ApiError Unit :=
  if !jsTruthy trimStart && !jsTruthy trimEnd then .error .invalidTrimParams
  else if (jsTruthy trimStart && decide (trimStart.getD 0 < 0))
       || (jsTruthy trimEnd && decide (trimEnd.getD 0 < 0)) then
    .error .negativeTrimValues
  else .ok ()

/-- POST /videos/:id/trim on a raw video: validate the parameters, then run
the engine; an engine exception surfaces as the route catch-all error. -/
def trimRequest (trimStart trimEnd : Option ℚ) (buf : Buf) :
    Except ApiError (Buf × ℚ) :=
  match validateTrimParams trimStart trimEnd with
  | .error e => .error e
  | .ok _ =>
      match processVideoRaw buf trimStart trimEnd with
      | .error _ => .error .internalError
      | .ok r => .ok r

/-- A filesystem path split the way the source decomposes it with
path.dirname, path.basename and path.extname. -/
structure FsPath where
  dir : String
  base : String
  ext : String
deriving DecidableEq

/-- A row of the videos table: id, filename, filepath handle, size, duration. -/
structure VideoRow where
  id : ℕ
  filename : String
  filepath : FsPath
  size : ℕ
  duration : ℚ
deriving DecidableEq

/-- A row of the share_links table: id, video reference, unique token,
expiry instant. -/
structure ShareLinkRow where
  id : ℕ
  videoId : ℕ
  token : String
  expiryTimestamp : ℚ
deriving DecidableEq

/-- The persistent database state: the videos and share_links tables. -/
structure Db where
  videos : List VideoRow
  shareLinks : List ShareLinkRow
deriving DecidableEq

/-- The unified failure of share resolution: a single error value whether the
token never existed or has expired. -/
inductive ShareResolveError where
  | notFoundOrExpired
deriving DecidableEq, Repr

/-- GET /videos/share/:token in app.js: the first share_links row with
matching token and expiry strictly in the future, joined to its videos row;
any other outcome is the one unified 404. -/
def resolveShareLink (db : Db) (token : String) (now : ℚ) :
    Except ShareResolveError VideoRow :=
  match db.shareLinks.find? (fun l => l.token == token && decide (now < l.expiryTimestamp)) with
  | none => .error .notFoundOrExpired
  | some l =>
      match db.videos.find? (fun v => v.id == l.videoId) with
      | none => .error .notFoundOrExpired
      | some v => .ok v

/-- Storage collaborator: the bytes stored at each path handle. -/
def Store := FsPath → Option Buf

/-- fs.writeFileSync: store bytes at a path, leaving every other path
untouched. -/
def writeFile (s : Store) (p : FsPath) (content : Buf) : Store :=
  fun q => if q = p then some content else s q

/-- Output path generated by processVideo:
dirname / (basename ++ "-trimmed-" ++ timestamp) ++ ext. -/
def trimOutputPath (input : FsPath) (timestamp : String) : FsPath :=
  ⟨input.dir, input.base ++ "-trimmed-" ++ timestamp, input.ext⟩

/-- Output path generated by mergeVideos:
dirname(inputPaths[0]) / ("merged-" ++ timestamp) ++ ".raw". -/
def mergeOutputPath (inputs : List FsPath) (timestamp : String) : FsPath :=
  ⟨(inputs.head?.map FsPath.dir).getD "", "merged-" ++ timestamp, ".raw"⟩

/-- One trim request end to end over storage and database state, app.js POST
/videos/:id/trim joined with the raw branch of processVideo: read the input,
trim, write the output at the generated path, insert a new videos row. -/
def trimStep (store : Store) (db : List VideoRow) (inputPath : FsPath)
    (timestamp : String) (trimStart trimEnd : Option ℚ) :
    Except EngineError (Store × List VideoRow × FsPath) :=
  match store inputPath with
  | none => .error .ioError
  | some inputBuffer =>
      match processVideoRaw inputBuffer trimStart trimEnd with
      | .error e => .error e
      | .ok r =>
          let outPath := trimOutputPath inputPath timestamp
          .ok (writeFile store outPath r.1,
               db ++ [⟨db.length + 1, outPath.base ++ outPath.ext, outPath, r.1.length, r.2⟩],
               outPath)

/-- Reading a list of input paths from storage; a filesystem read failure is
an IO error. -/
def readAll (store : Store) : List FsPath → Except EngineError (List Buf)
  | [] => .ok []
  | p :: ps =>
      match store p with
      | none => .error .ioError
      | some b =>
          match readAll store ps with
          | .error e => .error e
          | .ok bs => .ok (b :: bs)

/-- One merge request end to end over storage and database state, app.js POST
/videos/merge joined with mergeVideos: read all inputs, concatenate, write
the output at the generated path, insert a new videos row. -/
def mergeStep (store : Store) (db : List VideoRow) (inputPaths : List FsPath)
    (timestamp : String) :
    Except EngineError (Store × List VideoRow × FsPath) :=
  match readAll store inputPaths with
  | .error e => .error e
  | .ok bufs =>
      let r := mergeVideos bufs
      let outPath := mergeOutputPath inputPaths timestamp
      .ok (writeFile store outPath r.1,
           db ++ [⟨db.length + 1, outPath.base ++ outPath.ext, outPath, r.1.length, r.2⟩],
           outPath)

/-- Fixture path for concrete witnesses: an asset stored at d/a.raw. -/
def wPathA : FsPath := ⟨"d", "a", ".raw"⟩

/-- Fixture path for concrete witnesses: an asset stored at d/b.raw. -/
def wPathB : FsPath := ⟨"d", "b", ".raw"⟩

/-- Fixture storage holding empty buffers at the two fixture paths. -/
def wStore : Store := fun p =>
  if p = wPathA then some [] else if p = wPathB then some [] else none

/-- Fixture path colliding with a merge output: an asset named d/merged-1.raw,
as produced by a merge whose timestamp was "1". -/
def cPathMerged : FsPath := ⟨"d", "merged-1", ".raw"⟩

/-- Fixture storage holding distinct nonempty buffers at the colliding path
and at d/b.raw. -/
def cStore : Store := fun p =>
  if p = cPathMerged then some [1] else if p = wPathB then some [2] else none

/-! ## Helper lemmas -/

lemma frameSize_eq : frameSize = 230400 := by norm_num [frameSize]

lemma jsTrunc_natCast (n : ℕ) : jsTrunc (n : ℚ) = n := by
  simp [jsTrunc]

lemma jsTrunc_zero : jsTrunc 0 = 0 := by
  simp [jsTrunc]

lemma rawTotalFrames_mul (L : ℕ) : rawTotalFrames L * (frameSize : ℚ) = L := by
  rw [rawTotalFrames, div_mul_cancel₀]
  norm_num [frameSize]

lemma jsStartFrame_some_zero : jsStartFrame (some 0) = 0 := by
  simp [jsStartFrame, jsTruthy]

lemma jsEndFrame_some_zero (L : ℕ) : jsEndFrame L (some 0) = rawTotalFrames L := by
  simp [jsEndFrame, jsTruthy]

lemma bufferAlloc_natCast (n : ℕ) : bufferAlloc (n : ℚ) = .ok (List.replicate n 0) := by
  rw [bufferAlloc, jsTrunc_natCast]
  rw [if_neg (not_lt.mpr (Int.natCast_nonneg n))]
  simp

lemma rawTotalFrames_div_30 (L : ℕ) :
    rawTotalFrames L / 30 = calculateRawVideoDuration L := by
  rw [rawTotalFrames, calculateRawVideoDuration, div_div]
  norm_num [frameSize]

/-- The raw trim path on integral frame numbers within bounds: an exact
byte-range copy of frames s through e. -/
lemma processVideoRaw_ok_of_frames (buf : Buf) (ts te : Option ℚ) (s e : ℕ)
    (hs : jsStartFrame ts = s) (he : jsEndFrame buf.length te = e)
    (hse : s ≤ e) (heL : e * frameSize ≤ buf.length) :
    processVideoRaw buf ts te =
      .ok ((buf.drop (s * frameSize)).take ((e - s) * frameSize),
           ((e : ℚ) - (s : ℚ)) / 30) := by
  have hcast : (e : ℚ) - (s : ℚ) = ((e - s : ℕ) : ℚ) := by
    rw [Nat.cast_sub hse]
  unfold processVideoRaw
  rw [hs, he, hcast]
  rw [show ((e - s : ℕ) : ℚ) * (frameSize : ℚ) = (((e - s) * frameSize : ℕ) : ℚ) by
    push_cast; ring]
  rw [bufferAlloc_natCast]
  rw [show (s : ℚ) * (frameSize : ℚ) = ((s * frameSize : ℕ) : ℚ) by push_cast; ring]
  rw [show (e : ℚ) * (frameSize : ℚ) = ((e * frameSize : ℕ) : ℚ) by push_cast; ring]
  rw [jsTrunc_natCast, jsTrunc_natCast]
  dsimp only
  rw [if_neg (not_lt.mpr (Int.natCast_nonneg (s * frameSize)))]
  simp only [Int.toNat_natCast]
  congr 1
  rw [bufferCopy]
  have hsub : e * frameSize - s * frameSize = (e - s) * frameSize := by
    rw [Nat.sub_mul]
  have hlen : ((buf.drop (s * frameSize)).take ((e - s) * frameSize)).length
      = (e - s) * frameSize := by
    rw [List.length_take, List.length_drop]
    have h1 : s * frameSize ≤ e * frameSize := Nat.mul_le_mul_right _ hse
    omega
  simp only [List.length_replicate, hsub, List.take_take, min_self]
  rw [hlen]
  rw [List.drop_replicate]
  simp

lemma foldl_append_eq_join (bufs : List Buf) (acc : Buf) :
    bufs.foldl (fun a b => a ++ b) acc = acc ++ bufs.flatten := by
  induction bufs generalizing acc with
  | nil => simp
  | cons b bs ih => simp [ih]

lemma mergeVideos_fst (bufs : List Buf) : (mergeVideos bufs).1 = bufs.flatten := by
  rw [mergeVideos, foldl_append_eq_join]
  simp

lemma mergeDurationBySumming_eq (bufs : List Buf) :
    mergeDurationBySumming bufs
      = (((bufs.map List.length).sum : ℕ) : ℚ) / (320 * 240 * 3 * 30) := by
  induction bufs with
  | nil => simp [mergeDurationBySumming]
  | cons b bs ih =>
      rw [mergeDurationBySumming, List.map_cons, List.sum_cons,
        ← mergeDurationBySumming, ih, calculateRawVideoDuration,
        List.map_cons, List.sum_cons]
      push_cast
      rw [add_div]

/-! ## Claim theorems -/

/-- C8: trimming with trimStartSeconds = 0 and trimEndSeconds = 0 returns the
input buffer byte for byte, with the duration the system derives for the
input size (identity trim). -/
theorem trim_zero_zero_identity (buf : Buf) :
    processVideoRaw buf (some 0) (some 0)
      = .ok (buf, calculateRawVideoDuration buf.length) := by
  unfold processVideoRaw
  simp only [jsStartFrame_some_zero, jsEndFrame_some_zero, sub_zero, zero_mul,
    rawTotalFrames_mul, bufferAlloc_natCast, jsTrunc_zero, jsTrunc_natCast]
  rw [if_neg (lt_irrefl (0 : ℤ))]
  rw [rawTotalFrames_div_30]
  congr 1
  rw [bufferCopy]
  simp only [Int.toNat_zero, Int.toNat_natCast, List.drop_zero, Nat.sub_zero,
    List.length_replicate, List.take_length, List.take_take, min_self]
  simp

/-- C6: the raw duration estimate is the exact unrounded quotient of the byte
size by frameSizeBytes * frameRate of the reference geometry, whose frame
size is positive; a zero-byte input yields duration 0. -/
theorem estimateRaw_exact_quotient (L : ℕ) :
    calculateRawVideoDuration L
        = (L : ℚ) / ((refGeometry.frameSizeBytes : ℚ) * (refGeometry.frameRate : ℚ))
      ∧ 0 < refGeometry.frameSizeBytes
      ∧ calculateRawVideoDuration 0 = 0 := by
  norm_num [calculateRawVideoDuration, refGeometry, RawGeometry.frameSizeBytes]

/-- C3: the duration merge reports equals the sum of the per-input raw
estimates, and that sum in turn equals the estimate re-derived from the total
output size, so the two methods agree (in particular on inputs whose sizes
are exact multiples of the frame size). -/
theorem merge_duration_refinement (bufs : List Buf) :
    (mergeVideos bufs).2 = mergeDurationBySumming bufs
      ∧ mergeDurationBySumming bufs
          = calculateRawVideoDuration ((bufs.map List.length).sum) := by
  constructor
  · rw [mergeDurationBySumming_eq, mergeVideos]
    simp only [foldl_append_eq_join, List.nil_append]
    rw [List.length_flatten]
  · rw [mergeDurationBySumming_eq, calculateRawVideoDuration]

/-- C7: merge outputs the byte-for-byte concatenation of its inputs in input
order, so the output length is the sum of the input lengths; two 5-second
reference buffers merge into 69,120,000 bytes with duration 10. -/
theorem merge_concatenation (bufs : List Buf) :
    (mergeVideos bufs).1 = bufs.flatten
      ∧ (mergeVideos bufs).1.length = (bufs.map List.length).sum
      ∧ (∀ b1 b2 : Buf, b1.length = 34560000 → b2.length = 34560000 →
          (mergeVideos [b1, b2]).1.length = 69120000
            ∧ (mergeVideos [b1, b2]).2 = 10) := by
  refine ⟨mergeVideos_fst bufs, ?_, ?_⟩
  · rw [mergeVideos_fst, List.length_flatten]
  · intro b1 b2 h1 h2
    have hfst : (mergeVideos [b1, b2]).1.length = 69120000 := by
      rw [mergeVideos_fst, List.length_flatten]
      simp [h1, h2]
    refine ⟨hfst, ?_⟩
    rw [mergeVideos]
    simp only [foldl_append_eq_join, List.nil_append]
    have : ([b1, b2].flatten).length = 69120000 := by
      rw [List.length_flatten]; simp [h1, h2]
    rw [this]
    norm_num

/-- C7 witness: merging two concrete 34,560,000-byte buffers yields duration
10. -/
theorem merge_concatenation_witness :
    (mergeVideos [List.replicate 34560000 0, List.replicate 34560000 0]).2 = 10 :=
  ((merge_concatenation []).2.2 (List.replicate 34560000 0)
    (List.replicate 34560000 0) (List.length_replicate 34560000 0)
    (List.length_replicate 34560000 0)).2

/-- C10: at POST /videos/:id/trim a trim value of 0 is treated exactly like
an absent value; a request with both values 0, like one with neither, is
rejected with the invalid-parameters error before the engine runs, so the
identity trim cannot be requested through the route. -/
theorem trim_zero_is_absent :
    (∀ buf : Buf, trimRequest (some 0) (some 0) buf = .error .invalidTrimParams)
      ∧ (∀ buf : Buf, trimRequest none none buf = .error .invalidTrimParams)
      ∧ (∀ (te : Option ℚ) (buf : Buf),
          trimRequest (some 0) te buf = trimRequest none te buf)
      ∧ (∀ (ts : Option ℚ) (buf : Buf),
          trimRequest ts (some 0) buf = trimRequest ts none buf) := by
  have hts : jsTruthy (some 0) = false := by simp [jsTruthy]
  have hgd : (some (0 : ℚ)).getD 0 = 0 := rfl
  refine ⟨?_, ?_, ?_, ?_⟩
  · intro buf
    rw [trimRequest, validateTrimParams]
    simp [jsTruthy]
  · intro buf
    rw [trimRequest, validateTrimParams]
    simp [jsTruthy]
  · intro te buf
    rw [trimRequest, trimRequest, validateTrimParams, validateTrimParams]
    unfold processVideoRaw
    simp [jsTruthy, jsStartFrame]
  · intro ts buf
    rw [trimRequest, trimRequest, validateTrimParams, validateTrimParams]
    unfold processVideoRaw
    simp [jsTruthy, jsEndFrame]

lemma refGeometry_frameSizeBytes : refGeometry.frameSizeBytes = frameSize := rfl

lemma refGeometry_frameRate : refGeometry.frameRate = 30 := rfl

lemma bufferAlloc_zero : bufferAlloc 0 = .ok [] := by
  rw [bufferAlloc, jsTrunc_zero]
  simp

lemma jsTrunc_nonneg {q : ℚ} (h : 0 ≤ q) : 0 ≤ jsTrunc q := by
  rw [jsTrunc, if_pos h]
  exact Int.floor_nonneg.mpr h

/-- An empty window (startFrame equal to endFrame, start nonnegative) is not
rejected by the raw trim path: it succeeds with an empty buffer and
duration 0. -/
lemma processVideoRaw_empty_window (buf : Buf) (ts te : Option ℚ)
    (h : jsStartFrame ts = jsEndFrame buf.length te)
    (h0 : 0 ≤ jsStartFrame ts) :
    processVideoRaw buf ts te = .ok ([], 0) := by
  unfold processVideoRaw
  rw [← h, sub_self, zero_mul, bufferAlloc_zero]
  dsimp only
  rw [if_neg (not_lt.mpr (jsTrunc_nonneg (by positivity)))]
  rw [zero_div]
  congr 1

/-- C5: for a valid integral trim window the output length is exactly
(endFrame - startFrame) * frameSizeBytes and the duration is
(endFrame - startFrame) / frameRate; concretely, trimming a 34,560,000-byte
buffer with trimStart = 1 yields 27,648,000 bytes and duration 4. -/
theorem trim_valid_window_len_dur :
    (∀ (buf : Buf) (ts te : Option ℚ) (s e : ℕ),
      jsStartFrame ts = s → jsEndFrame buf.length te = e → s < e →
      (e : ℚ) ≤ rawTotalFrames buf.length →
      ∃ out : Buf,
        processVideoRaw buf ts te
          = .ok (out, ((e : ℚ) - (s : ℚ)) / (refGeometry.frameRate : ℚ))
        ∧ out.length = (e - s) * refGeometry.frameSizeBytes)
    ∧ (∀ buf : Buf, buf.length = 34560000 →
        ∃ out : Buf,
          processVideoRaw buf (some 1) none = .ok (out, 4)
          ∧ out.length = 27648000) := by
  have main : ∀ (buf : Buf) (ts te : Option ℚ) (s e : ℕ),
      jsStartFrame ts = s → jsEndFrame buf.length te = e → s < e →
      (e : ℚ) ≤ rawTotalFrames buf.length →
      ∃ out : Buf,
        processVideoRaw buf ts te
          = .ok (out, ((e : ℚ) - (s : ℚ)) / (refGeometry.frameRate : ℚ))
        ∧ out.length = (e - s) * refGeometry.frameSizeBytes := by
    intro buf ts te s e hs he hse heL
    have heL2 : e * frameSize ≤ buf.length := by
      have h1 : (e : ℚ) * (frameSize : ℚ) ≤ rawTotalFrames buf.length * (frameSize : ℚ) :=
        mul_le_mul_of_nonneg_right heL (by norm_num [frameSize])
      rw [rawTotalFrames_mul] at h1
      exact_mod_cast h1
    refine ⟨(buf.drop (s * frameSize)).take ((e - s) * frameSize), ?_, ?_⟩
    · rw [refGeometry_frameRate]
      exact_mod_cast processVideoRaw_ok_of_frames buf ts te s e hs he hse.le heL2
    · rw [refGeometry_frameSizeBytes, List.length_take, List.length_drop]
      have h1 : s * frameSize ≤ e * frameSize := Nat.mul_le_mul_right _ hse.le
      have h2 : (e - s) * frameSize = e * frameSize - s * frameSize :=
        Nat.sub_mul e s frameSize
      omega
  refine ⟨main, ?_⟩
  intro buf hbuf
  have hs : jsStartFrame (some 1) = ((30 : ℕ) : ℚ) := by
    norm_num [jsStartFrame, jsTruthy]
  have he : jsEndFrame buf.length none = ((150 : ℕ) : ℚ) := by
    rw [jsEndFrame, hbuf]
    norm_num [jsTruthy, rawTotalFrames, frameSize]
  obtain ⟨out, hok, hlen⟩ := main buf (some 1) none 30 150 hs he (by norm_num) (by
    rw [hbuf]
    norm_num [rawTotalFrames, frameSize])
  refine ⟨out, ?_, ?_⟩
  · rw [hok]
    norm_num [refGeometry_frameRate]
  · rw [hlen]
    norm_num [refGeometry_frameSizeBytes, frameSize]

/-- C5 witness: the concrete 34,560,000-byte buffer trimmed with
trimStart = 1 gives 27,648,000 bytes and duration 4. -/
theorem trim_valid_window_len_dur_witness :
    ∃ out : Buf,
      processVideoRaw (List.replicate 34560000 0) (some 1) none = .ok (out, 4)
      ∧ out.length = 27648000 :=
  trim_valid_window_len_dur.2 (List.replicate 34560000 0)
    (List.length_replicate 34560000 0)

/-- C2 counterexample: for a 230,401-byte buffer (not a multiple of the frame
size) the computed totalFrames is 230401/230400, not the floor the claim
specifies; and for trimStart = 1/100 the computed startFrame is 3/10, not
floor(0.3) = 0. -/
theorem trim_no_floor_counterexample :
    rawTotalFrames 230401 ≠ ((⌊rawTotalFrames 230401⌋ : ℤ) : ℚ)
      ∧ jsStartFrame (some (1/100)) ≠ ((⌊(1/100 : ℚ) * 30⌋ : ℤ) : ℚ) := by
  constructor
  · have h1 : rawTotalFrames 230401 = 230401 / 230400 := by
      norm_num [rawTotalFrames, frameSize]
    have h2 : ⌊(230401 / 230400 : ℚ)⌋ = 1 := by
      rw [Int.floor_eq_iff]
      norm_num
    rw [h1, h2]
    norm_num
  · have h1 : jsStartFrame (some (1/100)) = 3 / 10 := by
      norm_num [jsStartFrame, jsTruthy]
    have h2 : ⌊((1:ℚ)/100 * 30)⌋ = 0 := by
      rw [Int.floor_eq_iff]
      norm_num
    rw [h1, h2]
    norm_num

/-- C2 amended: the trim computations apply no floor: totalFrames is the
exact quotient of the byte length by the frame size (multiplying back
recovers the length), startFrame and endFrame are the exact products for a
provided nonzero trim value, and totalFrames is an integer exactly when the
frame size divides the buffer length. -/
theorem trim_frame_arithmetic_exact (L : ℕ) (q : ℚ) (hq : q ≠ 0) :
    rawTotalFrames L * (frameSize : ℚ) = L
      ∧ jsStartFrame (some q) = q * 30
      ∧ jsEndFrame L (some q) = rawTotalFrames L - q * 30
      ∧ ((∃ n : ℤ, rawTotalFrames L = (n : ℚ)) ↔ frameSize ∣ L) := by
  refine ⟨rawTotalFrames_mul L, ?_, ?_, ?_, ?_⟩
  · simp [jsStartFrame, jsTruthy, hq]
  · simp [jsEndFrame, jsTruthy, hq]
  · rintro ⟨n, hn⟩
    rw [rawTotalFrames, div_eq_iff (by norm_num [frameSize])] at hn
    have h2 : (L : ℤ) = n * frameSize := by exact_mod_cast hn
    have hn0 : 0 ≤ n := by
      by_contra hneg
      push_neg at hneg
      have : n * (frameSize : ℤ) < 0 :=
        mul_neg_of_neg_of_pos hneg (by norm_num [frameSize])
      omega
    obtain ⟨m, rfl⟩ := Int.eq_ofNat_of_zero_le hn0
    have h3 : L = m * frameSize := by exact_mod_cast h2
    exact ⟨m, by rw [h3, Nat.mul_comm]⟩
  · rintro ⟨k, rfl⟩
    refine ⟨k, ?_⟩
    rw [rawTotalFrames]
    push_cast
    rw [mul_comm (frameSize : ℚ) (k : ℚ), mul_div_assoc, div_self (by norm_num [frameSize]), mul_one]

/-- C2 witness: the amended statement at a 230,400-byte buffer and
trimStart = 1. -/
theorem trim_frame_arithmetic_exact_witness :
    rawTotalFrames 230400 * (frameSize : ℚ) = 230400
      ∧ jsStartFrame (some 1) = 1 * 30
      ∧ jsEndFrame 230400 (some 1) = rawTotalFrames 230400 - 1 * 30
      ∧ ((∃ n : ℤ, rawTotalFrames 230400 = (n : ℚ)) ↔ frameSize ∣ 230400) :=
  trim_frame_arithmetic_exact 230400 1 (by norm_num)

lemma pairwise_token_inj {links : List ShareLinkRow}
    (h : links.Pairwise (fun a b => a.token ≠ b.token)) :
    ∀ {a b : ShareLinkRow}, a ∈ links → b ∈ links → a.token = b.token → a = b := by
  induction links with
  | nil => intro a b ha; cases ha
  | cons x xs ih =>
      rw [List.pairwise_cons] at h
      intro a b ha hb htok
      rcases List.mem_cons.mp ha with rfl | ha2
      · rcases List.mem_cons.mp hb with rfl | hb2
        · rfl
        · exact absurd htok (h.1 b hb2)
      · rcases List.mem_cons.mp hb with rfl | hb2
        · exact absurd htok.symm (h.1 a ha2)
        · exact ih h.2 ha2 hb2 htok

/-- C4: with unique tokens and every link joined to an existing video,
resolution returns the linked video exactly for a stored token whose expiry
is strictly after now; when no stored link has the token unexpired (unknown
token or expired token alike) it fails with the single unified
not-found-or-expired error value. -/
theorem resolve_share_token (db : Db) (t : String) (now : ℚ)
    (huniq : db.shareLinks.Pairwise (fun a b => a.token ≠ b.token))
    (hfk : ∀ l ∈ db.shareLinks, ∃ v ∈ db.videos, v.id = l.videoId) :
    (∀ l ∈ db.shareLinks, l.token = t → now < l.expiryTimestamp →
      ∃ v ∈ db.videos, v.id = l.videoId ∧ resolveShareLink db t now = .ok v)
    ∧ ((¬ ∃ l ∈ db.shareLinks, l.token = t ∧ now < l.expiryTimestamp) →
        resolveShareLink db t now = .error .notFoundOrExpired) := by
  constructor
  · intro l hl htok hexp
    have hmatch : ∃ x ∈ db.shareLinks,
        (fun l => l.token == t && decide (now < l.expiryTimestamp)) x = true :=
      ⟨l, hl, by simp [htok, hexp]⟩
    obtain ⟨l2, hfind⟩ := Option.isSome_iff_exists.mp
      (List.find?_isSome.mpr hmatch)
    have hl2mem : l2 ∈ db.shareLinks := List.mem_of_find?_eq_some hfind
    have hl2prop := List.find?_some hfind
    simp only [Bool.and_eq_true, beq_iff_eq, decide_eq_true_eq] at hl2prop
    have hleq : l2 = l := pairwise_token_inj huniq hl2mem hl (hl2prop.1.trans htok.symm)
    subst hleq
    obtain ⟨v, hv, hvid⟩ := hfk l2 hl2mem
    have hvmatch : ∃ x ∈ db.videos, (fun v => v.id == l2.videoId) x = true :=
      ⟨v, hv, by simp [hvid]⟩
    obtain ⟨v2, hvfind⟩ := Option.isSome_iff_exists.mp
      (List.find?_isSome.mpr hvmatch)
    have hv2mem : v2 ∈ db.videos := List.mem_of_find?_eq_some hvfind
    have hv2prop := List.find?_some hvfind
    simp only [beq_iff_eq] at hv2prop
    refine ⟨v2, hv2mem, hv2prop, ?_⟩
    rw [resolveShareLink, hfind]
    dsimp only
    rw [hvfind]
  · intro hno
    have hfind : db.shareLinks.find?
        (fun l => l.token == t && decide (now < l.expiryTimestamp)) = none := by
      rw [List.find?_eq_none]
      intro x hx
      simp only [Bool.and_eq_true, beq_iff_eq, decide_eq_true_eq]
      rintro ⟨h1, h2⟩
      exact hno ⟨x, hx, h1, h2⟩
    rw [resolveShareLink, hfind]

/-- Fixture video row for the share-resolution witness. -/
def wVideo : VideoRow := ⟨7, "a.raw", wPathA, 0, 5⟩

/-- Fixture unexpired share link for the share-resolution witness. -/
def wLinkValid : ShareLinkRow := ⟨1, 7, "tokA", 100⟩

/-- Fixture expired share link for the share-resolution witness. -/
def wLinkExpired : ShareLinkRow := ⟨2, 7, "tokB", 5⟩

/-- Fixture database for the share-resolution witness. -/
def wDb : Db := ⟨[wVideo], [wLinkValid, wLinkExpired]⟩

/-- C4 witness: at time 10 the unexpired token resolves to the linked video
and the expired token fails with the unified error. -/
theorem resolve_share_token_witness :
    (∃ v ∈ wDb.videos, v.id = wLinkValid.videoId
        ∧ resolveShareLink wDb "tokA" 10 = .ok v)
      ∧ resolveShareLink wDb "tokB" 10 = .error .notFoundOrExpired := by
  have huniq : wDb.shareLinks.Pairwise (fun a b => a.token ≠ b.token) := by
    simp [wDb, wLinkValid, wLinkExpired]
  have hfk : ∀ l ∈ wDb.shareLinks, ∃ v ∈ wDb.videos, v.id = l.videoId := by
    intro l hl
    refine ⟨wVideo, by simp [wDb], ?_⟩
    simp only [wDb] at hl
    rcases List.mem_cons.mp hl with rfl | hl2
    · rfl
    · rcases List.mem_cons.mp hl2 with rfl | hl3
      · rfl
      · cases hl3
  constructor
  · exact (resolve_share_token wDb "tokA" 10 huniq hfk).1 wLinkValid
      (by simp [wDb]) rfl (by norm_num [wLinkValid])
  · exact (resolve_share_token wDb "tokB" 10 huniq hfk).2 (by
      rintro ⟨l, hl, htok, hexp⟩
      simp only [wDb] at hl
      rcases List.mem_cons.mp hl with rfl | hl2
      · exact absurd htok (by decide)
      · rcases List.mem_cons.mp hl2 with rfl | hl3
        · exact absurd hexp (by decide)
        · cases hl3)

lemma trimOutputPath_ne (p : FsPath) (ts : String) : trimOutputPath p ts ≠ p := by
  intro hc
  have hb : p.base ++ "-trimmed-" ++ ts = p.base := congrArg FsPath.base hc
  have hlen := congrArg String.length hb
  rw [String.length_append, String.length_append] at hlen
  have h9 : "-trimmed-".length = 9 := rfl
  omega

lemma writeFile_ne {s : Store} {p q : FsPath} {c : Buf} (h : q ≠ p) :
    writeFile s p c q = s q := by
  simp [writeFile, h]

/-- C9 counterexample: the merge output handle is not freshly generated in a
way distinct from every input handle. Merging an asset stored at
d/merged-1.raw (itself named by a merge with timestamp "1") with d/b.raw at
timestamp "1" produces the output path d/merged-1.raw, equal to the first
input handle, and that input's stored bytes are changed by the operation. -/
theorem merge_output_collides_with_input_counterexample :
    mergeOutputPath [cPathMerged, wPathB] "1" = cPathMerged
      ∧ cPathMerged ∈ [cPathMerged, wPathB]
      ∧ ∃ (st2 : Store) (db2 : List VideoRow),
          mergeStep cStore [] [cPathMerged, wPathB] "1"
            = .ok (st2, db2, cPathMerged)
          ∧ st2 cPathMerged ≠ cStore cPathMerged := by
  have hout : mergeOutputPath [cPathMerged, wPathB] "1" = cPathMerged := by decide
  have hAll : readAll cStore [cPathMerged, wPathB] = .ok [[1], [2]] := rfl
  have hmv2 : mergeVideos [[1], [2]] = ([1, 2], 1 / 3456000) := by
    unfold mergeVideos
    norm_num
  have h2 : mergeStep cStore [] [cPathMerged, wPathB] "1"
      = .ok (writeFile cStore cPathMerged [1, 2],
             [⟨1, cPathMerged.base ++ cPathMerged.ext, cPathMerged, 2, 1 / 3456000⟩],
             cPathMerged) := by
    unfold mergeStep
    rw [hAll]
    dsimp only
    rw [hmv2, hout]
    rfl
  exact ⟨hout, by simp, _, _, h2, by decide⟩

/-- C9 amended: a successful trim writes only at its freshly generated output
path, which provably differs from the input path, and appends one new videos
row; a successful merge writes only at its generated output path and appends
one new row, and whenever that path is fresh (not among the input handles,
the generated merged-timestamp name not colliding) every input's bytes are
unchanged. -/
theorem append_only_fresh_outputs :
    (∀ (store : Store) (db : List VideoRow) (inputPath : FsPath) (ts : String)
        (a b : Option ℚ) (store2 : Store) (db2 : List VideoRow) (outPath : FsPath),
      trimStep store db inputPath ts a b = .ok (store2, db2, outPath) →
        outPath ≠ inputPath
          ∧ (∀ p, p ≠ outPath → store2 p = store p)
          ∧ ∃ row, db2 = db ++ [row] ∧ row.filepath = outPath)
    ∧ (∀ (store : Store) (db : List VideoRow) (inputPaths : List FsPath)
        (ts : String) (store2 : Store) (db2 : List VideoRow) (outPath : FsPath),
      mergeStep store db inputPaths ts = .ok (store2, db2, outPath) →
        (∀ p, p ≠ outPath → store2 p = store p)
          ∧ (∃ row, db2 = db ++ [row] ∧ row.filepath = outPath)
          ∧ (outPath ∉ inputPaths → ∀ p ∈ inputPaths, store2 p = store p)) := by
  constructor
  · intro store db inputPath ts a b store2 db2 outPath h
    unfold trimStep at h
    cases hin : store inputPath with
    | none => rw [hin] at h; simp at h
    | some inBuf =>
        rw [hin] at h
        dsimp only at h
        cases hp : processVideoRaw inBuf a b with
        | error e => rw [hp] at h; simp at h
        | ok r =>
            rw [hp] at h
            dsimp only at h
            rw [Except.ok.injEq, Prod.mk.injEq, Prod.mk.injEq] at h
            obtain ⟨hs2, hdb2, hout⟩ := h
            refine ⟨?_, ?_, ?_⟩
            · rw [← hout]
              exact trimOutputPath_ne _ _
            · intro p hp2
              rw [← hs2]
              exact writeFile_ne (hout ▸ hp2)
            · exact ⟨_, hdb2.symm, hout⟩
  · intro store db inputPaths ts store2 db2 outPath h
    unfold mergeStep at h
    cases hr : readAll store inputPaths with
    | error e => rw [hr] at h; simp at h
    | ok bufs =>
        rw [hr] at h
        dsimp only at h
        rw [Except.ok.injEq, Prod.mk.injEq, Prod.mk.injEq] at h
        obtain ⟨hs2, hdb2, hout⟩ := h
        have hunchanged : ∀ p, p ≠ outPath → store2 p = store p := by
          intro p hp2
          rw [← hs2]
          exact writeFile_ne (hout ▸ hp2)
        refine ⟨hunchanged, ⟨_, hdb2.symm, hout⟩, ?_⟩
        intro hfresh p hpmem
        exact hunchanged p (fun hc => hfresh (hc ▸ hpmem))

/-- C9 witness: a concrete trim writes to a path different from its input,
and a concrete merge leaves the first input's bytes unchanged. -/
theorem append_only_fresh_outputs_witness :
    (∃ (st2 : Store) (db2 : List VideoRow) (outP : FsPath),
        trimStep wStore [] wPathA "1" none none = .ok (st2, db2, outP)
          ∧ outP ≠ wPathA)
      ∧ (∃ (st2 : Store) (db2 : List VideoRow) (outP : FsPath),
        mergeStep wStore [] [wPathA, wPathB] "1" = .ok (st2, db2, outP)
          ∧ st2 wPathA = wStore wPathA) := by
  have hin : wStore wPathA = some [] := rfl
  have hproc : processVideoRaw [] none none = .ok ([], 0) :=
    processVideoRaw_empty_window [] none none
      (by norm_num [jsStartFrame, jsEndFrame, jsTruthy, rawTotalFrames])
      (by norm_num [jsStartFrame, jsTruthy])
  have h1 : trimStep wStore [] wPathA "1" none none
      = .ok (writeFile wStore (trimOutputPath wPathA "1") [],
             [⟨1, (trimOutputPath wPathA "1").base ++ (trimOutputPath wPathA "1").ext,
               trimOutputPath wPathA "1", 0, 0⟩],
             trimOutputPath wPathA "1") := by
    unfold trimStep
    rw [hin]
    dsimp only
    rw [hproc]
    rfl
  have hAll : readAll wStore [wPathA, wPathB] = .ok [[], []] := rfl
  have hmv : mergeVideos [[], []] = ([], 0) := by
    unfold mergeVideos
    norm_num
  have h2 : mergeStep wStore [] [wPathA, wPathB] "1"
      = .ok (writeFile wStore (mergeOutputPath [wPathA, wPathB] "1") [],
             [⟨1, (mergeOutputPath [wPathA, wPathB] "1").base
                 ++ (mergeOutputPath [wPathA, wPathB] "1").ext,
               mergeOutputPath [wPathA, wPathB] "1", 0, 0⟩],
             mergeOutputPath [wPathA, wPathB] "1") := by
    unfold mergeStep
    rw [hAll]
    dsimp only
    rw [hmv]
    rfl
  constructor
  · exact ⟨_, _, _, h1,
      (append_only_fresh_outputs.1 wStore [] wPathA "1" none none _ _ _ h1).1⟩
  · exact ⟨_, _, _, h2,
      (append_only_fresh_outputs.2 wStore [] [wPathA, wPathB] "1" _ _ _ h2).2.2
        (by decide) wPathA (by simp)⟩

end EditThat
